import Mathlib

/-!
Verification of the trainapi GTFS query server against its specification.
The definitions below are a shallow embedding of src/main.go: each Go
function that the claims mention is translated into a Lean function over
explicit table values (the HTTP layer, CSV reading and JSON serialization
are out of scope, per the specification).  Dates are modelled as
year/month/day triples; a Go time.Time produced by parsing a date-only
format is fully described by such a triple, and Before/After/Weekday are
computed from a day count (proleptic Gregorian, as Go does).
-/

/-- Splits a character list at every occurrence of the separator, as the Go
call strings.Split(t, sep) does for a one-character separator: the result
always has one more element than the number of separators, and splitting
the empty string yields one empty piece. -/
def splitCh (c : Char) : List Char → List (List Char)
  | [] => [[]]
  | x :: xs =>
    if x = c then [] :: splitCh c xs
    else
      match splitCh c xs with
      | [] => [[x]]
      | p :: ps => (x :: p) :: ps

/-- Numeric value of a list of decimal digit characters, most significant
first. -/
def natOfDigits (l : List Char) : Nat :=
  l.foldl (fun a c => a * 10 + (c.toNat - 48)) 0

/-- Syntactic part of Go strconv.Atoi: an optional single sign followed by
at least one decimal digit.  Returns the sign (true = negative) and the
digit characters, or none on a syntax error. -/
def atoiCore : List Char → Option (Bool × List Char)
  | [] => none
  | '-' :: rest => if rest ≠ [] ∧ rest.all Char.isDigit then some (true, rest) else none
  | '+' :: rest => if rest ≠ [] ∧ rest.all Char.isDigit then some (false, rest) else none
  | l => if l.all Char.isDigit then some (false, l) else none

/-- Largest value of the Go type int on a 64-bit platform. -/
def intMax64 : Int := 9223372036854775807

/-- Smallest value of the Go type int on a 64-bit platform. -/
def intMin64 : Int := -9223372036854775808

/-- Go strconv.Atoi viewed as a partial function: some value when Atoi
returns a nil error, none on a syntax error or a range error (the value is
representable in a signed 64-bit int). -/
def atoiL (l : List Char) : Option Int :=
  match atoiCore l with
  | none => none
  | some (neg, ds) =>
    let v : Int := if neg then -(natOfDigits ds : Int) else (natOfDigits ds : Int)
    if v < intMin64 ∨ intMax64 < v then none else some v

/-- Go strconv.Atoi on a String. -/
def atoi (s : String) : Option Int := atoiL s.toList

/-- The integer value Go strconv.Atoi returns together with its error: 0 on
a syntax error, and the nearest representable 64-bit bound on a range
error.  Code that discards the error (as loadStopTimes does) observes this
value. -/
def atoiVal (s : String) : Int :=
  match atoiCore s.toList with
  | none => 0
  | some (neg, ds) =>
    if neg then max (-(natOfDigits ds : Int)) intMin64
    else min (natOfDigits ds : Int) intMax64

/-- Rendering of an integer by the Go verb %02d: decimal digits, with a
single leading zero added when the value is a one-digit nonnegative
number (a sign counts toward the width of two). -/
def pad2 (n : Int) : String :=
  if 0 ≤ n ∧ n < 10 then "0" ++ toString n else toString n

/-- AdjustTime from src/main.go: splits the raw time on colons, returns the
input unchanged unless there are exactly three components and the first
parses under Atoi; otherwise folds an hour of 24 or more back by 24 and
re-emits the hour under %02d with minutes and seconds passed through. -/
def AdjustTime (t : String) : String :=
  let parts := splitCh ':' t.toList
  if parts.length = 3 then
    match atoiL (parts.getD 0 []) with
    | none => t
    | some hours =>
      let hours2 := if 24 ≤ hours then hours - 24 else hours
      pad2 hours2 ++ ":" ++ (parts.getD 1 []).asString ++ ":" ++ (parts.getD 2 []).asString
  else t

/-- Calendar date, the content of a Go time.Time obtained by parsing a
date-only layout. -/
structure Date where
  year : Nat
  month : Nat
  day : Nat
deriving DecidableEq, Repr

/-- Leap year rule of the proleptic Gregorian calendar, as used by the Go
time package. -/
def isLeapYear (y : Nat) : Bool :=
  (y % 4 == 0 && y % 100 != 0) || y % 400 == 0

/-- Number of days in a month. -/
def daysInMonth (y m : Nat) : Nat :=
  if m = 2 then (if isLeapYear y then 29 else 28)
  else if m = 4 ∨ m = 6 ∨ m = 9 ∨ m = 11 then 30 else 31

/-- Day count of a date (shifted by a constant): strictly monotone in the
calendar order, so Go Before/After on parsed dates are comparisons of this
count.  Standard civil-from-days arithmetic on the proleptic Gregorian
calendar, shifted 400 years to stay in Nat. -/
def toDays (dt : Date) : Nat :=
  let y := if dt.month ≤ 2 then dt.year + 399 else dt.year + 400
  let era := y / 400
  let yoe := y % 400
  let mp := if 2 < dt.month then dt.month - 3 else dt.month + 9
  let doy := (153 * mp + 2) / 5 + dt.day - 1
  let doe := yoe * 365 + yoe / 4 - yoe / 100 + doy
  era * 146097 + doe

/-- Go time.Weekday numbering of a date: Sunday = 0 through Saturday = 6. -/
def goWeekday (dt : Date) : Nat := (toDays dt + 3) % 7

/-- Weekday index in the convention of the specification: Monday = 0
through Sunday = 6. -/
def mondayIdx (dt : Date) : Nat := (goWeekday dt + 6) % 7

/-- Go time.Time zero value as a date: January 1 of year 1, the result of
time.Parse when the parse fails and the error is discarded. -/
def zeroDate : Date := ⟨1, 1, 1⟩

/-- Go time.Parse with layout 20060102: exactly eight digit characters,
year then month then day, with the month and the day range-checked.
Returns none exactly when Go returns a non-nil error. -/
def parseDate (s : String) : Option Date :=
  let cs := s.toList
  if cs.length = 8 ∧ cs.all Char.isDigit then
    let y := natOfDigits (cs.take 4)
    let m := natOfDigits ((cs.drop 4).take 2)
    let d := natOfDigits (cs.drop 6)
    if 1 ≤ m ∧ m ≤ 12 ∧ 1 ≤ d ∧ d ≤ daysInMonth y m then some ⟨y, m, d⟩ else none
  else none

/-- Result of the Go pattern startDate, _ := time.Parse(...): the parsed
date, or the zero time when the discarded error is non-nil. -/
def parseDateGo (s : String) : Date := (parseDate s).getD zeroDate

/-- Go time.Time.Before on parsed calendar dates. -/
def dateBefore (a b : Date) : Bool := toDays a < toDays b

/-- Go time.Time.After on parsed calendar dates. -/
def dateAfter (a b : Date) : Bool := toDays b < toDays a

/-- Stop record of gtfs/stops.txt, as the Go struct Stop. -/
structure Stop where
  stopID : String
  stopName : String
  lat : String
  lon : String
deriving DecidableEq, Repr

/-- StopTime record of gtfs/stop_times.txt, as the Go struct StopTime. -/
structure StopTime where
  tripID : String
  stopID : String
  arrivalTime : String
  departureTime : String
  stopSequence : Int
deriving DecidableEq, Repr

/-- Trip record of gtfs/trips.txt, as the Go struct Trip. -/
structure Trip where
  tripID : String
  routeID : String
  serviceID : String
deriving DecidableEq, Repr

/-- The 7-element day-of-week array of the Go struct Calendar, stored
Monday first as loadCalendar fills it: field k of the array holds column
monday+k of calendar.txt. -/
structure Weekdays where
  mon : Bool
  tue : Bool
  wed : Bool
  thu : Bool
  fri : Bool
  sat : Bool
  sun : Bool
deriving DecidableEq, Repr

/-- Array indexing cal.Weekdays[i] on the Monday-first array. -/
def weekdaysGet (w : Weekdays) : Nat → Bool
  | 0 => w.mon
  | 1 => w.tue
  | 2 => w.wed
  | 3 => w.thu
  | 4 => w.fri
  | 5 => w.sat
  | 6 => w.sun
  | _ => false

/-- Calendar record of gtfs/calendar.txt, as the Go struct Calendar. -/
structure Calendar where
  serviceID : String
  startDate : String
  endDate : String
  weekdays : Weekdays
deriving DecidableEq, Repr

/-- isValidTrip from src/main.go: scans the calendar list; for an entry
with the matching service id it parses both bounds discarding errors,
skips the entry when the date falls outside the range, and otherwise
consults the weekday array at the Go weekday number (Sunday = 0) of the
date, returning true on a set bit and scanning on otherwise. -/
def isValidTrip (trip : Trip) (date : Date) : List Calendar → Bool
  | [] => false
  | cal :: rest =>
    if cal.serviceID = trip.serviceID then
      let startDate := parseDateGo cal.startDate
      let endDate := parseDateGo cal.endDate
      if dateBefore date startDate || dateAfter date endDate then
        isValidTrip trip date rest
      else if weekdaysGet cal.weekdays (goWeekday date) then true
      else isValidTrip trip date rest
    else isValidTrip trip date rest

/-- Validity of a trip as the specification words it (claim C1): some
calendar entry with the matching service id has parseable bounds with
start_date at most the date, the date at most end_date, and the weekday
bit at the Monday-first index of the weekday of the date set. -/
def specTripValid (trip : Trip) (date : Date) (calendars : List Calendar) : Bool :=
  calendars.any fun cal =>
    decide (cal.serviceID = trip.serviceID) &&
    match parseDate cal.startDate, parseDate cal.endDate with
    | some sd, some ed =>
      decide (toDays sd ≤ toDays date) && decide (toDays date ≤ toDays ed) &&
      weekdaysGet cal.weekdays (mondayIdx date)
    | _, _ => false

/-- StopTime built from one data row of stop_times.txt exactly as
loadStopTimes fills it: columns 0, 3, 1, 2 as strings and column 4 through
Atoi with the error discarded.  The Go code indexes the row unchecked; the
embedding is stated for rows that have the five columns and reads a
missing column as the empty string. -/
def mkStopTime (record : List String) : StopTime :=
  ⟨record.getD 0 "", record.getD 3 "", record.getD 1 "", record.getD 2 "",
    atoiVal (record.getD 4 "")⟩

/-- Row loop of loadStopTimes: every data row is appended, none dropped. -/
def loadStopTimesRows : List (List String) → List StopTime
  | [] => []
  | record :: rest => mkStopTime record :: loadStopTimesRows rest

/-- loadStopTimes from src/main.go on the records of the CSV reader: skips
the header row and converts every remaining row. -/
def loadStopTimes (records : List (List String)) : List StopTime :=
  loadStopTimesRows (records.drop 1)

/-- Element of the stop list in the /getTrainInfo response, as the Go
struct TrainStop. -/
structure TrainStop where
  stopName : String
  arrivalTime : String
  departureTime : String
deriving DecidableEq, Repr

/-- Failure surfaced by a handler: the embedding keeps only the NotFound
responses the claims mention, with the message the Go code writes. -/
inductive GoError where
  | notFound : String → GoError
deriving DecidableEq, Repr

/-- Lookup stops[id] in the Go map built by loadStops: keyed by StopID with
later rows overwriting earlier ones, and the zero Stop value when the key
is absent. -/
def lookupStop (stops : List Stop) (sid : String) : Stop :=
  (((stops.filter fun s => decide (s.stopID = sid)).getLast?).getD ⟨"", "", "", ""⟩)

/-- Body of the inner loop of handleGetTrainInfo: resolve the stop, adjust
both times, and replace an empty adjusted time with the placeholder. -/
def resolveStop (stops : List Stop) (st : StopTime) : TrainStop :=
  let stop := lookupStop stops st.stopID
  let arrivalTime := AdjustTime st.arrivalTime
  let departureTime := AdjustTime st.departureTime
  ⟨stop.stopName,
    if arrivalTime = "" then "N/A" else arrivalTime,
    if departureTime = "" then "N/A" else departureTime⟩

/-- Trip filter of handleGetTrainInfo: keeps the trips whose id equals the
requested train number and that are valid on the date. -/
def matchingTrips (trips : List Trip) (trainNumber : String) (date : Date)
    (calendars : List Calendar) : List Trip :=
  trips.filter fun trip => decide (trip.tripID = trainNumber) && isValidTrip trip date calendars

/-- Inner loop of handleGetTrainInfo for one trip: appends a resolved stop
for every StopTime row carrying the trip id, in row order. -/
def stopsForTrip (stops : List Stop) (tripID : String) : List StopTime → List TrainStop
  | [] => []
  | st :: rest =>
    if st.tripID = tripID then resolveStop stops st :: stopsForTrip stops tripID rest
    else stopsForTrip stops tripID rest

/-- Outer loop of handleGetTrainInfo: one inner scan per matching trip. -/
def buildStops (stops : List Stop) (stopTimes : List StopTime) : List Trip → List TrainStop
  | [] => []
  | trip :: rest => stopsForTrip stops trip.tripID stopTimes ++ buildStops stops stopTimes rest

/-- Core of handleGetTrainInfo: the NotFound response when no trip row
matches the train number on the date, and otherwise the stop list built by
the nested loops.  The surrounding JSON formatting is out of scope. -/
def getTrainInfoStops (stops : List Stop) (stopTimes : List StopTime) (trips : List Trip)
    (calendars : List Calendar) (trainNumber : String) (date : Date) :
    Except GoError (List TrainStop) :=
  let mts := matchingTrips trips trainNumber date calendars
  if mts = [] then .error (.notFound "No trips found for this train number and date")
  else .ok (buildStops stops stopTimes mts)

/-- Per-trip scan state of handleGetTrainList: the four local variables of
the loop body, zero-initialized per trip. -/
structure ScanState where
  departureTime : String
  arrivalTime : String
  hasDeparture : Bool
  hasArrival : Bool
deriving DecidableEq, Repr

/-- Variables of the per-trip scan before the first iteration. -/
def initState : ScanState := ⟨"", "", false, false⟩

/-- One iteration body of the per-trip StopTime loop of handleGetTrainList:
a row of the trip overwrites the captured departure time when it stops at
the departure station, and the captured arrival time when it stops at the
arrival station. -/
def scanStep (tripID depID arrID : String) (s : ScanState) (st : StopTime) : ScanState :=
  if st.tripID = tripID then
    let s1 :=
      if st.stopID = depID then
        { s with hasDeparture := true, departureTime := AdjustTime st.departureTime }
      else s
    if st.stopID = arrID then
      { s1 with hasArrival := true, arrivalTime := AdjustTime st.arrivalTime }
    else s1
  else s

/-- Per-trip StopTime loop of handleGetTrainList, including the early break
taken as soon as both roles have been observed. -/
def scanLoop (tripID depID arrID : String) (s : ScanState) : List StopTime → ScanState
  | [] => s
  | st :: rest =>
    let s2 := scanStep tripID depID arrID s st
    if s2.hasDeparture && s2.hasArrival then s2
    else scanLoop tripID depID arrID s2 rest

/-- Number of rows the per-trip loop visits before breaking (the whole list
when the break is never taken). -/
def scanLen (tripID depID arrID : String) (s : ScanState) : List StopTime → Nat
  | [] => 0
  | st :: rest =>
    let s2 := scanStep tripID depID arrID s st
    if s2.hasDeparture && s2.hasArrival then 1
    else scanLen tripID depID arrID s2 rest + 1

/-- Row predicate: a StopTime of the given trip at the departure stop. -/
def isDepRow (tripID depID : String) (st : StopTime) : Bool :=
  decide (st.tripID = tripID ∧ st.stopID = depID)

/-- Row predicate: a StopTime of the given trip at the arrival stop. -/
def isArrRow (tripID arrID : String) (st : StopTime) : Bool :=
  decide (st.tripID = tripID ∧ st.stopID = arrID)

/-- Loop of findStopIndex with the running index made explicit. -/
def findStopIndexFrom (tripID stopID : String) (i : Int) : List StopTime → Int
  | [] => -1
  | st :: rest =>
    if st.tripID = tripID ∧ st.stopID = stopID then i
    else findStopIndexFrom tripID stopID (i + 1) rest

/-- findStopIndex from src/main.go: index of the first StopTime row with
the given trip id and stop id, and -1 when there is none. -/
def findStopIndex (tripID stopID : String) (stopTimes : List StopTime) : Int :=
  findStopIndexFrom tripID stopID 0 stopTimes

/-- Entry of the trains list in the /getTrainList response, as the local Go
struct TrainInfo of handleGetTrainList. -/
structure TrainInfo where
  tripID : String
  departureTime : String
  arrivalTime : String
deriving DecidableEq, Repr

/-- Trip loop of handleGetTrainList: for every trip valid on the date, run
the per-trip scan, and append the trip when both roles were observed with
non-empty captured times and the first departure row index is strictly
less than the first arrival row index. -/
def collectTrains (trips : List Trip) (stopTimes : List StopTime) (calendars : List Calendar)
    (depID arrID : String) (date : Date) : List TrainInfo :=
  match trips with
  | [] => []
  | trip :: rest =>
    let tail := collectTrains rest stopTimes calendars depID arrID date
    if isValidTrip trip date calendars then
      let s := scanLoop trip.tripID depID arrID initState stopTimes
      if s.hasDeparture = true ∧ s.hasArrival = true ∧ s.departureTime ≠ "" ∧ s.arrivalTime ≠ "" then
        if findStopIndex trip.tripID depID stopTimes < findStopIndex trip.tripID arrID stopTimes then
          ⟨trip.tripID, s.departureTime, s.arrivalTime⟩ :: tail
        else tail
      else tail
    else tail

/-- Calendar entry running Mondays only, all of 2024. -/
def calMon : Calendar := ⟨"S", "20240101", "20241231", ⟨true, false, false, false, false, false, false⟩⟩

/-- Calendar entry running every day of the week, all of 2024. -/
def calAll : Calendar := ⟨"S", "20240101", "20241231", ⟨true, true, true, true, true, true, true⟩⟩

/-- Calendar entry whose start date does not parse. -/
def calBadStart : Calendar := ⟨"S", "garbage!", "20991231", ⟨true, true, true, true, true, true, true⟩⟩

/-- Calendar entry whose end date does not parse. -/
def calBadEnd : Calendar := ⟨"S", "20240101", "junk", ⟨true, true, true, true, true, true, true⟩⟩

/-- Trip 101 on service S. -/
def trip101 : Trip := ⟨"101", "r", "S"⟩

/-- Trip 5 on service S. -/
def trip5 : Trip := ⟨"5", "r", "S"⟩

/-- Monday, June 10, 2024. -/
def dMon : Date := ⟨2024, 6, 10⟩

/-- Stop-times of trip 5 visiting the departure stop A twice before the
arrival stop B. -/
def sts4 : List StopTime :=
  [⟨"5", "A", "", "08:00:00", 1⟩, ⟨"5", "A", "", "09:00:00", 2⟩, ⟨"5", "B", "10:00:00", "", 3⟩]

/-- One stop named Central. -/
def stopsA : List Stop := [⟨"A", "Central", "0", "0"⟩]

/-- One stop-time row for trip 5. -/
def sts5 : List StopTime := [⟨"5", "A", "08:00:00", "08:05:00", 1⟩]

/-- CSV records of a stop_times.txt whose only data row has a stop_sequence
that is a valid number too large for a 64-bit int. -/
def records8 : List (List String) :=
  [["trip_id", "arrival_time", "departure_time", "stop_id", "stop_sequence"],
   ["5", "08:00:00", "08:05:00", "A", "99999999999999999999"]]

/-- CSV records of a stop_times.txt whose only data row has a stop_sequence
that is not a number at all. -/
def records8s : List (List String) :=
  [["trip_id", "arrival_time", "departure_time", "stop_id", "stop_sequence"],
   ["5", "08:00:00", "08:05:00", "A", "x9"]]

/-- CSV records of a stop_times.txt whose only data row has a stop_sequence
that is a valid negative number below the smallest 64-bit int. -/
def records8n : List (List String) :=
  [["trip_id", "arrival_time", "departure_time", "stop_id", "stop_sequence"],
   ["5", "08:00:00", "08:05:00", "A", "-99999999999999999999"]]

/-- Last element of a cons in terms of the last element of the tail. -/
theorem lastOfCons {α : Type} (a : α) (l : List α) :
    (a :: l).getLast? = some (l.getLast?.getD a) := by
  induction l generalizing a with
  | nil => rfl
  | cons b l ih => rw [List.getLast?_cons_cons, ih b, Option.getD_some]

/-- Departure time after one scan step: overwritten exactly on a departure
row of the trip. -/
theorem scanStep_departureTime (tripID depID arrID : String) (s : ScanState) (st : StopTime) :
    (scanStep tripID depID arrID s st).departureTime =
      if isDepRow tripID depID st then AdjustTime st.departureTime else s.departureTime := by
  simp only [scanStep, isDepRow]
  by_cases h1 : st.tripID = tripID <;> by_cases h2 : st.stopID = depID <;>
    by_cases h3 : st.stopID = arrID <;> simp [h1, h2, h3] <;> split_ifs <;> simp_all

/-- Arrival time after one scan step: overwritten exactly on an arrival row
of the trip. -/
theorem scanStep_arrivalTime (tripID depID arrID : String) (s : ScanState) (st : StopTime) :
    (scanStep tripID depID arrID s st).arrivalTime =
      if isArrRow tripID arrID st then AdjustTime st.arrivalTime else s.arrivalTime := by
  simp only [scanStep, isArrRow]
  by_cases h1 : st.tripID = tripID <;> by_cases h2 : st.stopID = depID <;>
    by_cases h3 : st.stopID = arrID <;> simp [h1, h2, h3] <;> split_ifs <;> simp_all

/-- Departure time of a full fold of scan steps: the adjusted time of the
last departure row in the list, or the initial value if there is none. -/
theorem foldl_scan_dep (tripID depID arrID : String) (l : List StopTime) :
    ∀ s : ScanState,
      (l.foldl (scanStep tripID depID arrID) s).departureTime =
        (((l.filter (isDepRow tripID depID)).getLast?).map
          (fun st => AdjustTime st.departureTime)).getD s.departureTime := by
  induction l with
  | nil => intro s; simp
  | cons st l ih =>
    intro s
    rw [List.foldl_cons, ih]
    by_cases h : isDepRow tripID depID st
    · rw [List.filter_cons_of_pos h, lastOfCons]
      cases hl : (l.filter (isDepRow tripID depID)).getLast? with
      | none => simp [hl, scanStep_departureTime, h]
      | some u => simp [hl]
    · rw [List.filter_cons_of_neg (by simpa using h)]
      cases hl : (l.filter (isDepRow tripID depID)).getLast? with
      | none => simp [hl, scanStep_departureTime, h]
      | some u => simp [hl]

/-- Arrival time of a full fold of scan steps: the adjusted time of the
last arrival row in the list, or the initial value if there is none. -/
theorem foldl_scan_arr (tripID depID arrID : String) (l : List StopTime) :
    ∀ s : ScanState,
      (l.foldl (scanStep tripID depID arrID) s).arrivalTime =
        (((l.filter (isArrRow tripID arrID)).getLast?).map
          (fun st => AdjustTime st.arrivalTime)).getD s.arrivalTime := by
  induction l with
  | nil => intro s; simp
  | cons st l ih =>
    intro s
    rw [List.foldl_cons, ih]
    by_cases h : isArrRow tripID arrID st
    · rw [List.filter_cons_of_pos h, lastOfCons]
      cases hl : (l.filter (isArrRow tripID arrID)).getLast? with
      | none => simp [hl, scanStep_arrivalTime, h]
      | some u => simp [hl]
    · rw [List.filter_cons_of_neg (by simpa using h)]
      cases hl : (l.filter (isArrRow tripID arrID)).getLast? with
      | none => simp [hl, scanStep_arrivalTime, h]
      | some u => simp [hl]

/-- The scan with early break equals the breakless fold over the prefix of
rows actually visited. -/
theorem scanLoop_eq_take (tripID depID arrID : String) (l : List StopTime) :
    ∀ s : ScanState,
      scanLoop tripID depID arrID s l =
        (l.take (scanLen tripID depID arrID s l)).foldl (scanStep tripID depID arrID) s := by
  induction l with
  | nil => intro s; simp [scanLoop, scanLen]
  | cons st l ih =>
    intro s
    simp only [scanLoop, scanLen]
    by_cases h : ((scanStep tripID depID arrID s st).hasDeparture &&
        (scanStep tripID depID arrID s st).hasArrival) = true
    · rw [if_pos h, if_pos h]
      simp
    · rw [if_neg h, if_neg h, ih]
      simp [List.take_succ_cons]

/-- The inner GetTrainInfo loop is the row-order filter of the trip id
mapped through stop resolution. -/
theorem stopsForTrip_eq (stops : List Stop) (tripID : String) (sts : List StopTime) :
    stopsForTrip stops tripID sts =
      (sts.filter fun st => decide (st.tripID = tripID)).map (resolveStop stops) := by
  induction sts with
  | nil => rfl
  | cons st rest ih =>
    simp only [stopsForTrip, List.filter_cons]
    by_cases h : st.tripID = tripID
    · simp [h, ih]
    · simp [h, ih]

/-- Flattening a constant-nil map gives nil. -/
theorem flattenMapNil {α β : Type} (l : List α) :
    (l.map fun _ => ([] : List β)).flatten = [] := by
  induction l with
  | nil => rfl
  | cons a l ih => simp [ih]

/-- Members of the matching-trips filter carry the requested id and are
valid on the date. -/
theorem matchingTrips_mem (trips : List Trip) (tn : String) (date : Date)
    (cals : List Calendar) (t : Trip) (h : t ∈ matchingTrips trips tn date cals) :
    t ∈ trips ∧ t.tripID = tn ∧ isValidTrip t date cals = true := by
  simp only [matchingTrips, List.mem_filter, Bool.and_eq_true, decide_eq_true_eq] at h
  tauto

/-- When every matched trip carries the requested id, the nested loops
produce one copy of the row-order stop list per matched trip. -/
theorem buildStops_eq (stops : List Stop) (sts : List StopTime) (tn : String) :
    ∀ mts : List Trip, (∀ t ∈ mts, t.tripID = tn) →
      buildStops stops sts mts =
        (mts.map fun _ =>
          (sts.filter fun st => decide (st.tripID = tn)).map (resolveStop stops)).flatten := by
  intro mts
  induction mts with
  | nil => intro _; rfl
  | cons t rest ih =>
    intro hall
    have ht : t.tripID = tn := hall t (by simp)
    simp only [buildStops, List.map_cons, List.flatten_cons]
    rw [stopsForTrip_eq, ht, ih (fun u hu => hall u (by simp [hu]))]

/-- Row loop of loadStopTimes as a map. -/
theorem loadStopTimesRows_eq (l : List (List String)) :
    loadStopTimesRows l = l.map mkStopTime := by
  induction l with
  | nil => rfl
  | cons r rest ih => simp [loadStopTimesRows, ih]

/-- When Atoi succeeds, the value it reports beside its nil error is the
parsed value. -/
theorem atoiVal_eq_of_some (s : String) (v : Int) :
    atoiL s.toList = some v → atoiVal s = v := by
  unfold atoiL atoiVal
  rcases hc : atoiCore s.toList with _ | ⟨neg, ds⟩
  · intro h; exact absurd h (by simp)
  · simp only
    cases neg with
    | false =>
      simp only [Bool.false_eq_true, if_false]
      by_cases hcond : ((natOfDigits ds : Int) < intMin64 ∨ intMax64 < (natOfDigits ds : Int))
      · rw [if_pos hcond]; intro h; exact absurd h (by simp)
      · rw [if_neg hcond]
        push_neg at hcond
        intro h
        rw [min_eq_left hcond.2]
        exact Option.some.inj h
    | true =>
      simp only [eq_self_iff_true, if_true]
      by_cases hcond : (-(natOfDigits ds : Int) < intMin64 ∨ intMax64 < -(natOfDigits ds : Int))
      · rw [if_pos hcond]; intro h; exact absurd h (by simp)
      · rw [if_neg hcond]
        push_neg at hcond
        intro h
        rw [max_eq_left hcond.1]
        exact Option.some.inj h

/-- On a nonnegative numeral above the largest 64-bit int, Atoi reports the
largest 64-bit int beside its range error. -/
theorem atoiVal_overflow_pos (s : String) (ds : List Char)
    (hc : atoiCore s.toList = some (false, ds))
    (hbig : intMax64 < (natOfDigits ds : Int)) :
    atoiVal s = intMax64 := by
  unfold atoiVal
  rw [hc]
  show min (natOfDigits ds : Int) intMax64 = intMax64
  exact min_eq_right (le_of_lt hbig)

/-- On a negative numeral below the smallest 64-bit int, Atoi reports the
smallest 64-bit int beside its range error. -/
theorem atoiVal_overflow_neg (s : String) (ds : List Char)
    (hc : atoiCore s.toList = some (true, ds))
    (hsmall : -(natOfDigits ds : Int) < intMin64) :
    atoiVal s = intMin64 := by
  unfold atoiVal
  rw [hc]
  show max (-(natOfDigits ds : Int)) intMin64 = intMin64
  exact max_eq_right (le_of_lt hsmall)

/-- Claim C1: the claim states that isValidTrip is true iff some matching
calendar entry covers the date and has the weekday bit set at the
Monday-first index of the weekday of the date.  The code instead indexes
the Monday-first array with the Go weekday number (Sunday = 0), one slot
off, contradicting the Monday-first layout its own comments document.
Evaluation at the failing input: a Monday-only calendar covering
2024-06-10 (a Monday) makes the claim-side predicate true while the code
returns false, because the code consults the Tuesday slot. -/
theorem c1_weekday_code_bug :
    isValidTrip trip101 dMon [calMon] = false ∧
    specTripValid trip101 dMon [calMon] = true ∧
    goWeekday dMon = 1 ∧ mondayIdx dMon = 0 ∧
    weekdaysGet calMon.weekdays (goWeekday dMon) = false ∧
    weekdaysGet calMon.weekdays (mondayIdx dMon) = true ∧
    parseDateGo calMon.startDate = ⟨2024, 1, 1⟩ ∧
    parseDateGo calMon.endDate = ⟨2024, 12, 31⟩ := by
  decide

/-- Claim C2 counterexample: the claim says a calendar entry with an
unparsable start date or end date never authorizes any query date.  An
entry whose start date fails to parse gets the zero time as its lower
bound, so it still authorizes: with an unparsable start date and a far
future end date, isValidTrip returns true. -/
theorem c2_counterexample :
    parseDate calBadStart.startDate = none ∧
    isValidTrip trip101 dMon [calBadStart] = true := by
  decide

/-- Claim C2 amended: an unparsable date string parses to the zero time
(January 1 of year 1).  An entry whose end date fails to parse never
matches a query date after the zero time: the entry is skipped, scanning
continues, and no error is raised.  An entry whose start date fails to
parse is not skipped: its lower bound collapses to the zero time, and it
still authorizes any in-range date whose weekday slot (at the Go weekday
index the code uses) is set. -/
theorem c2_amended_correct :
    (∀ (trip : Trip) (date : Date) (cal : Calendar) (rest : List Calendar),
      parseDate cal.endDate = none →
      toDays zeroDate < toDays date →
      isValidTrip trip date (cal :: rest) = isValidTrip trip date rest) ∧
    (∀ (trip : Trip) (date : Date) (cal : Calendar) (rest : List Calendar) (e : Date),
      cal.serviceID = trip.serviceID →
      parseDate cal.startDate = none →
      parseDate cal.endDate = some e →
      toDays zeroDate ≤ toDays date →
      toDays date ≤ toDays e →
      weekdaysGet cal.weekdays (goWeekday date) = true →
      isValidTrip trip date (cal :: rest) = true) := by
  constructor
  · intro trip date cal rest hend hafter
    simp only [isValidTrip, parseDateGo, hend, Option.getD_none]
    by_cases hs : cal.serviceID = trip.serviceID
    · rw [if_pos hs]
      have hda : dateAfter date zeroDate = true := by
        simp [dateAfter, hafter]
      rw [hda, Bool.or_true, if_pos rfl]
    · rw [if_neg hs]
  · intro trip date cal rest e hs hstart hend hge hle hwd
    simp only [isValidTrip, parseDateGo, hstart, hend, Option.getD_none, Option.getD_some]
    rw [if_pos hs]
    have h1 : dateBefore date zeroDate = false := by
      simp [dateBefore]; omega
    have h2 : dateAfter date e = false := by
      simp [dateAfter]; omega
    rw [h1, h2, Bool.or_false, if_neg (by simp), if_pos hwd]

/-- Claim C2 amended witness: the skip rule applied to a concrete entry
with an unparsable end date. -/
theorem c2_amended_correct_witness :
    isValidTrip trip101 dMon [calBadEnd] = isValidTrip trip101 dMon [] :=
  c2_amended_correct.1 trip101 dMon calBadEnd [] (by decide) (by decide)

/-- Claim C3: every trip in the station-pair search result has the first
row index of a StopTime with its trip id and the departure stop id
strictly less than the first row index of a StopTime with its trip id and
the arrival stop id, so no returned trip has arrival position at or before
departure position. -/
theorem c3_order_strict (trips : List Trip) (stopTimes : List StopTime)
    (calendars : List Calendar) (depID arrID : String) (date : Date) (ti : TrainInfo) :
    ti ∈ collectTrains trips stopTimes calendars depID arrID date →
    findStopIndex ti.tripID depID stopTimes < findStopIndex ti.tripID arrID stopTimes := by
  induction trips with
  | nil => intro hmem; simp [collectTrains] at hmem
  | cons trip rest ih =>
    intro hmem
    simp only [collectTrains] at hmem
    split_ifs at hmem with h1 h2 h3
    · rcases List.mem_cons.mp hmem with he | hm
      · subst he; simpa using h3
      · exact ih hm
    · exact ih hmem
    · exact ih hmem
    · exact ih hmem

/-- Claim C3 witness: the ordering conclusion at a concrete reported
trip. -/
theorem c3_order_strict_witness :
    findStopIndex "5" "A" sts4 < findStopIndex "5" "B" sts4 :=
  c3_order_strict [trip5] sts4 [calAll] "A" "B" dMon ⟨"5", "09:00:00", "10:00:00"⟩ (by decide)

/-- Claim C4 counterexample: the claim says the reported departure time is
the normalized departure time of the FIRST StopTime of the trip at the
departure stop, even when the stop occurs several times before the scan
stops.  When trip 5 passes departure stop A at rows 0 and 1 before
arrival stop B at row 2, the code reports the time of the second A row
(09:00:00), not of the first (whose normalized time is 08:00:00). -/
theorem c4_counterexample :
    collectTrains [trip5] sts4 [calAll] "A" "B" dMon = [⟨"5", "09:00:00", "10:00:00"⟩] ∧
    (sts4.filter (isDepRow "5" "A")).head? = some ⟨"5", "A", "", "08:00:00", 1⟩ ∧
    AdjustTime "08:00:00" = "08:00:00" ∧ ("09:00:00" : String) ≠ "08:00:00" := by
  decide

/-- Claim C4 amended: within the scanned prefix (the rows up to and
including the first row at which both roles have been observed, or the
whole table when they never are), the reported departure time is the
normalized departure time of the LAST StopTime of the trip at the
departure stop, and the reported arrival time is the normalized arrival
time of the LAST such arrival row; each role is still captured
independently, and the scan does not stop on the first departure match
alone.  Every entry of the station-pair result carries exactly the times
of this per-trip scan. -/
theorem c4_amended_last_occurrence (depID arrID : String) (stopTimes : List StopTime) :
    (∀ tripID : String,
      (scanLoop tripID depID arrID initState stopTimes).departureTime =
        ((((stopTimes.take (scanLen tripID depID arrID initState stopTimes)).filter
            (isDepRow tripID depID)).getLast?).map
          (fun st => AdjustTime st.departureTime)).getD "" ∧
      (scanLoop tripID depID arrID initState stopTimes).arrivalTime =
        ((((stopTimes.take (scanLen tripID depID arrID initState stopTimes)).filter
            (isArrRow tripID arrID)).getLast?).map
          (fun st => AdjustTime st.arrivalTime)).getD "") ∧
    (∀ (trips : List Trip) (calendars : List Calendar) (date : Date) (ti : TrainInfo),
      ti ∈ collectTrains trips stopTimes calendars depID arrID date →
      ti.departureTime = (scanLoop ti.tripID depID arrID initState stopTimes).departureTime ∧
      ti.arrivalTime = (scanLoop ti.tripID depID arrID initState stopTimes).arrivalTime) := by
  constructor
  · intro tripID
    rw [scanLoop_eq_take]
    rw [foldl_scan_dep, foldl_scan_arr]
    exact ⟨rfl, rfl⟩
  · intro trips calendars date ti
    induction trips with
    | nil => intro hmem; simp [collectTrains] at hmem
    | cons trip rest ih =>
      intro hmem
      simp only [collectTrains] at hmem
      split_ifs at hmem with h1 h2 h3
      · rcases List.mem_cons.mp hmem with he | hm
        · subst he; exact ⟨rfl, rfl⟩
        · exact ih hm
      · exact ih hmem
      · exact ih hmem
      · exact ih hmem

/-- Claim C4 amended witness: the reported entry for trip 5 carries the
scan times. -/
theorem c4_amended_last_occurrence_witness :
    (⟨"5", "09:00:00", "10:00:00"⟩ : TrainInfo).departureTime =
      (scanLoop "5" "A" "B" initState sts4).departureTime ∧
    (⟨"5", "09:00:00", "10:00:00"⟩ : TrainInfo).arrivalTime =
      (scanLoop "5" "A" "B" initState sts4).arrivalTime :=
  (c4_amended_last_occurrence "A" "B" sts4).2 [trip5] [calAll] dMon
    ⟨"5", "09:00:00", "10:00:00"⟩ (by decide)

/-- Claim C5 counterexample: the claim says the stop list contains exactly
the StopTimes whose trip id equals the requested id, in row order.  When
the trips table contains the matching trip row twice (both valid on the
date), the handler appends the whole row-order list once per matching
row, so the stop list holds two copies of the single matching StopTime. -/
theorem c5_counterexample :
    getTrainInfoStops stopsA sts5 [trip5, trip5] [calAll] "5" dMon =
      .ok [⟨"Central", "08:00:00", "08:05:00"⟩, ⟨"Central", "08:00:00", "08:05:00"⟩] ∧
    (sts5.filter fun st => decide (st.tripID = "5")).map (resolveStop stopsA) =
      [⟨"Central", "08:00:00", "08:05:00"⟩] ∧
    ([⟨"Central", "08:00:00", "08:05:00"⟩, ⟨"Central", "08:00:00", "08:05:00"⟩] : List TrainStop) ≠
      [⟨"Central", "08:00:00", "08:05:00"⟩] :=
  ⟨rfl, by decide, by decide⟩

/-- Claim C5 amended: for every trip id matching at least one valid trip
row, the stop list is one copy, per matching row, of the StopTimes whose
trip id equals the requested id, each resolved to its Stop name with both
times normalized, in the order the rows appear in the loaded table and not
re-sorted by the stop_sequence field; when exactly one trip row matches,
the stop list is exactly that row-order list. -/
theorem c5_amended_per_trip_copies (stops : List Stop) (stopTimes : List StopTime)
    (trips : List Trip) (calendars : List Calendar) (trainNumber : String) (date : Date)
    (hne : matchingTrips trips trainNumber date calendars ≠ []) :
    getTrainInfoStops stops stopTimes trips calendars trainNumber date =
      .ok (((matchingTrips trips trainNumber date calendars).map fun _ =>
        (stopTimes.filter fun st => decide (st.tripID = trainNumber)).map
          (resolveStop stops)).flatten) ∧
    ((matchingTrips trips trainNumber date calendars).length = 1 →
      getTrainInfoStops stops stopTimes trips calendars trainNumber date =
        .ok ((stopTimes.filter fun st => decide (st.tripID = trainNumber)).map
          (resolveStop stops))) := by
  have hall : ∀ t ∈ matchingTrips trips trainNumber date calendars, t.tripID = trainNumber :=
    fun t ht => (matchingTrips_mem _ _ _ _ t ht).2.1
  have hbs := buildStops_eq stops stopTimes trainNumber _ hall
  constructor
  · simp only [getTrainInfoStops]
    rw [if_neg hne, hbs]
  · intro hlen
    obtain ⟨t, hmts⟩ := List.length_eq_one.mp hlen
    simp only [getTrainInfoStops]
    rw [if_neg hne, hbs, hmts]
    simp

/-- Claim C5 amended witness: the single-matching-row case at a concrete
table. -/
theorem c5_amended_per_trip_copies_witness :
    getTrainInfoStops stopsA sts5 [trip5] [calAll] "5" dMon =
      .ok ((sts5.filter fun st => decide (st.tripID = "5")).map (resolveStop stopsA)) :=
  (c5_amended_per_trip_copies stopsA sts5 [trip5] [calAll] "5" dMon (by decide)).2 (by decide)

/-- Claim C6: AdjustTime returns inputs without exactly three colon-split
components unchanged, returns inputs whose hour fails Atoi unchanged,
subtracts 24 exactly once from an hour of at least 24, re-emits the hour
under the two-digit zero pad with minutes and seconds verbatim, and maps
the three documented examples as stated; totality holds by type. -/
theorem c6_adjust_time_spec :
    (∀ t : String, (splitCh ':' t.toList).length ≠ 3 → AdjustTime t = t) ∧
    (∀ (t : String) (h m s : List Char),
      splitCh ':' t.toList = [h, m, s] → atoiL h = none → AdjustTime t = t) ∧
    (∀ (t : String) (h m s : List Char) (hr : Int),
      splitCh ':' t.toList = [h, m, s] → atoiL h = some hr → 24 ≤ hr →
      AdjustTime t = pad2 (hr - 24) ++ ":" ++ m.asString ++ ":" ++ s.asString) ∧
    (∀ (t : String) (h m s : List Char) (hr : Int),
      splitCh ':' t.toList = [h, m, s] → atoiL h = some hr → hr < 24 →
      AdjustTime t = pad2 hr ++ ":" ++ m.asString ++ ":" ++ s.asString) ∧
    (∀ n : Int, 0 ≤ n → n < 10 → pad2 n = "0" ++ toString n) ∧
    (∀ n : Int, 10 ≤ n → pad2 n = toString n) ∧
    AdjustTime "25:10:00" = "01:10:00" ∧
    AdjustTime "09:05:00" = "09:05:00" ∧
    AdjustTime "bad" = "bad" := by
  refine ⟨?_, ?_, ?_, ?_, ?_, ?_, by decide, by decide, by decide⟩
  · intro t hlen
    simp only [AdjustTime]
    rw [if_neg hlen]
  · intro t h m s hsplit hatoi
    simp only [AdjustTime, hsplit]
    simp [hatoi]
  · intro t h m s hr hsplit hatoi hge
    simp only [AdjustTime, hsplit]
    simp [hatoi, List.getD, hge]
  · intro t h m s hr hsplit hatoi hlt
    simp only [AdjustTime, hsplit]
    simp [hatoi, List.getD]
    rw [if_neg (by omega)]
  · intro n h0 h10
    simp [pad2, h0, h10]
  · intro n h10
    simp only [pad2]
    rw [if_neg (by omega)]

/-- Claim C6 witness: the unparsable-hour rule applied to a concrete
three-component input. -/
theorem c6_adjust_time_spec_witness : AdjustTime "xx:00:00" = "xx:00:00" :=
  c6_adjust_time_spec.2.1 "xx:00:00" ['x', 'x'] ['0', '0'] ['0', '0'] (by decide) (by decide)

/-- Claim C7: when the requested id matches no trip row, or matches only
rows that are not valid on the date, GetTrainInfo fails with the NotFound
error and produces no stop list. -/
theorem c7_not_found (stops : List Stop) (stopTimes : List StopTime) (trips : List Trip)
    (calendars : List Calendar) (trainNumber : String) (date : Date)
    (hno : ∀ t ∈ trips, t.tripID = trainNumber → isValidTrip t date calendars = false) :
    getTrainInfoStops stops stopTimes trips calendars trainNumber date =
      .error (.notFound "No trips found for this train number and date") := by
  have hmts : matchingTrips trips trainNumber date calendars = [] := by
    simp only [matchingTrips]
    rw [List.filter_eq_nil_iff]
    intro t ht
    by_cases hid : t.tripID = trainNumber
    · simp [hid, hno t ht hid]
    · simp [hid]
  simp [getTrainInfoStops, hmts]

/-- Claim C7 witness: an unknown trip id on a concrete table. -/
theorem c7_not_found_witness :
    getTrainInfoStops stopsA sts5 [trip5] [calAll] "9" dMon =
      .error (.notFound "No trips found for this train number and date") :=
  c7_not_found stopsA sts5 [trip5] [calAll] "9" dMon (by decide)

/-- Claim C8 counterexample: the claim says a data row whose stop_sequence
does not parse as an integer is included with the field defaulted to 0.
A row whose stop_sequence is a number too large for a 64-bit int makes
Atoi fail with a range error, yet Atoi reports the clamped maximum next to
the error, so the row is included with stop_sequence 9223372036854775807,
not 0. -/
theorem c8_counterexample :
    atoi "99999999999999999999" = none ∧
    loadStopTimes records8 = [⟨"5", "A", "08:00:00", "08:05:00", 9223372036854775807⟩] ∧
    ((9223372036854775807 : Int) = 0 → False) := by
  decide

/-- Claim C8 amended: every data row is included, in position, with its
other fields kept as read; the loaded stop_sequence is, exhaustively by
case: the parsed value when Atoi succeeds, 0 when the field is
syntactically not an integer, the largest 64-bit int when the field is a
nonnegative numeral above it, and the smallest 64-bit int when the field
is a negative numeral below it (the clamp keeps the sign of the input);
no row is dropped and loading never fails. -/
theorem c8_amended_tolerant_rows (records : List (List String)) (r : List String)
    (hr : r ∈ records.drop 1) :
    loadStopTimes records = (records.drop 1).map mkStopTime ∧
    mkStopTime r ∈ loadStopTimes records ∧
    (mkStopTime r).tripID = r.getD 0 "" ∧
    (mkStopTime r).arrivalTime = r.getD 1 "" ∧
    (mkStopTime r).departureTime = r.getD 2 "" ∧
    (mkStopTime r).stopID = r.getD 3 "" ∧
    (atoiCore (r.getD 4 "").toList = none → (mkStopTime r).stopSequence = 0) ∧
    (∀ v : Int, atoi (r.getD 4 "") = some v → (mkStopTime r).stopSequence = v) ∧
    (∀ ds : List Char, atoiCore (r.getD 4 "").toList = some (false, ds) →
      intMax64 < (natOfDigits ds : Int) → (mkStopTime r).stopSequence = intMax64) ∧
    (∀ ds : List Char, atoiCore (r.getD 4 "").toList = some (true, ds) →
      -(natOfDigits ds : Int) < intMin64 → (mkStopTime r).stopSequence = intMin64) := by
  have hmap : loadStopTimes records = (records.drop 1).map mkStopTime := by
    simp [loadStopTimes, loadStopTimesRows_eq]
  refine ⟨hmap, ?_, rfl, rfl, rfl, rfl, ?_, ?_, ?_, ?_⟩
  · rw [hmap]; exact List.mem_map_of_mem mkStopTime hr
  · intro hcore
    show atoiVal (r.getD 4 "") = 0
    unfold atoiVal
    rw [hcore]
  · intro v hv
    exact atoiVal_eq_of_some (r.getD 4 "") v hv
  · intro ds hc hbig
    exact atoiVal_overflow_pos (r.getD 4 "") ds hc hbig
  · intro ds hc hsmall
    exact atoiVal_overflow_neg (r.getD 4 "") ds hc hsmall

/-- Claim C8 amended witness: on concrete tables, the syntactically bad
row is included with stop_sequence 0, and the negative-overflow row is
included clamped to the smallest 64-bit int. -/
theorem c8_amended_tolerant_rows_witness :
    mkStopTime ["5", "08:00:00", "08:05:00", "A", "x9"] ∈ loadStopTimes records8s ∧
    (mkStopTime ["5", "08:00:00", "08:05:00", "A", "x9"]).stopSequence = 0 ∧
    mkStopTime ["5", "08:00:00", "08:05:00", "A", "-99999999999999999999"] ∈
      loadStopTimes records8n ∧
    (mkStopTime ["5", "08:00:00", "08:05:00", "A", "-99999999999999999999"]).stopSequence =
      intMin64 :=
  ⟨(c8_amended_tolerant_rows records8s ["5", "08:00:00", "08:05:00", "A", "x9"]
      (by decide)).2.1,
   (c8_amended_tolerant_rows records8s ["5", "08:00:00", "08:05:00", "A", "x9"]
      (by decide)).2.2.2.2.2.2.1 (by decide),
   (c8_amended_tolerant_rows records8n ["5", "08:00:00", "08:05:00", "A", "-99999999999999999999"]
      (by decide)).2.1,
   (c8_amended_tolerant_rows records8n ["5", "08:00:00", "08:05:00", "A", "-99999999999999999999"]
      (by decide)).2.2.2.2.2.2.2.2.2 (List.replicate 20 '9') (by decide) (by decide)⟩

/-- Claim C9: for a three-component time whose hour parses to at least 48,
AdjustTime subtracts 24 exactly once, so the emitted hour is the decimal
rendering of a value of at least 24 (no zero pad applies) and the result
is not a valid clock time; the two documented examples evaluate as
stated. -/
theorem c9_hour_ge_48 :
    (∀ (t : String) (h m s : List Char) (hr : Int),
      splitCh ':' t.toList = [h, m, s] → atoiL h = some hr → 48 ≤ hr →
      AdjustTime t = toString (hr - 24) ++ ":" ++ m.asString ++ ":" ++ s.asString ∧
        24 ≤ hr - 24 ∧ pad2 (hr - 24) = toString (hr - 24)) ∧
    AdjustTime "48:10:00" = "24:10:00" ∧
    AdjustTime "49:10:00" = "25:10:00" := by
  refine ⟨?_, by decide, by decide⟩
  intro t h m s hr hsplit hatoi hge
  have hpad : pad2 (hr - 24) = toString (hr - 24) := by
    simp only [pad2]
    rw [if_neg (by omega)]
  refine ⟨?_, by omega, hpad⟩
  have h24 : (24:Int) ≤ hr := by omega
  simp only [AdjustTime, hsplit]
  simp [hatoi, List.getD, h24]
  rw [hpad]

/-- Claim C9 witness: the hour 50 instance. -/
theorem c9_hour_ge_48_witness :
    AdjustTime "50:00:00" = toString ((50:Int) - 24) ++ ":" ++
      (['0', '0'] : List Char).asString ++ ":" ++ (['0', '0'] : List Char).asString ∧
    24 ≤ (50:Int) - 24 ∧ pad2 ((50:Int) - 24) = toString ((50:Int) - 24) :=
  c9_hour_ge_48.1 "50:00:00" ['5', '0'] ['0', '0'] ['0', '0'] 50 (by decide) (by decide)
    (by decide)

/-- Claim C10: when the requested id matches at least one trip row valid on
the date but no StopTime row carries that id, GetTrainInfo succeeds with
an empty stop list: the NotFound decision depends only on trip existence
and calendar validity, never on stop-time data. -/
theorem c10_empty_stop_list (stops : List Stop) (stopTimes : List StopTime) (trips : List Trip)
    (calendars : List Calendar) (trainNumber : String) (date : Date) (t : Trip)
    (hmem : t ∈ trips) (hid : t.tripID = trainNumber)
    (hval : isValidTrip t date calendars = true)
    (hnost : ∀ st ∈ stopTimes, st.tripID ≠ trainNumber) :
    getTrainInfoStops stops stopTimes trips calendars trainNumber date = .ok [] := by
  have hmm : t ∈ matchingTrips trips trainNumber date calendars := by
    simp [matchingTrips, List.mem_filter, hmem, hid, hval]
  have hne : matchingTrips trips trainNumber date calendars ≠ [] := List.ne_nil_of_mem hmm
  have hall : ∀ u ∈ matchingTrips trips trainNumber date calendars, u.tripID = trainNumber :=
    fun u hu => (matchingTrips_mem _ _ _ _ u hu).2.1
  have hfil : stopTimes.filter (fun st => decide (st.tripID = trainNumber)) = [] := by
    rw [List.filter_eq_nil_iff]
    intro st hst
    simp [hnost st hst]
  simp only [getTrainInfoStops]
  rw [if_neg hne, buildStops_eq stops stopTimes trainNumber _ hall, hfil]
  simp [flattenMapNil]

/-- Claim C10 witness: a valid trip with an empty stop-times table. -/
theorem c10_empty_stop_list_witness :
    getTrainInfoStops stopsA [] [trip5] [calAll] "5" dMon = .ok [] :=
  c10_empty_stop_list stopsA [] [trip5] [calAll] "5" dMon trip5 (by decide) (by decide)
    (by decide) (by decide)
